import Mathlib

/-!
# go-tableaupublic: `workbooks.go`

A shallow embedding of the package's three functions, `IsNotFound`,
`DownloadWorkbookFile` and `AllWorkbooks`, with the properties their
specification states.

Modelling conventions.

* A Go `error` value is `Option Error` (`none` is `nil`).  The package's
  sentinel `ErrWorkbookNotFound` is one constructor of `Error`; every error built
  by a library the package calls (`net/http`, `os`, `io`, `goreq`,
  `encoding/json`) is `Error.external msg`.  Go compares errors by identity, and
  none of those libraries can hold the package's own sentinel, so an external
  error is never equal to it, not even with the same message.
* The network, the clock and the operating system are explicit arguments
  (`Server`, `World`, `FileSystem`); a function with side effects returns the new
  state together with its results.
* The `for` loop of `AllWorkbooks` has no bound in the source: it is run with
  fuel, and the run records the requests it issued.
* Go strings are modelled by Lean strings, runes by `Char`.
-/

namespace TableauPublic

/-! ## Errors (workbooks.go, lines 15-27) -/

/-- Error values the package can return. -/
inductive Error where
  /-- The value of the package variable `ErrWorkbookNotFound`. -/
  | workbookNotFound
  /-- Any error value created outside the package. -/
  | external (msg : String)
deriving DecidableEq, Repr

/-- Line 17: `var ErrWorkbookNotFound = errors.New("workbook not found")`. -/
abbrev ErrWorkbookNotFound : Error := Error.workbookNotFound

/-- Lines 21-27: `IsNotFound`. -/
def IsNotFound (err : Option Error) : Bool :=
  if err = some ErrWorkbookNotFound then
    true
  else
    false

/-! ## Workbook (lines 29-37) -/

/-- Lines 30-37: the `Workbook` struct.  `Size` is an `int64`; no arithmetic is done
on it. -/
structure Workbook where
  RepoURL : String
  Size : Int
  Title : String
  Description : String
  ShowInProfile : Bool
  AllowDataAccess : Bool
deriving DecidableEq, Repr

/-- An element of a `[]*Workbook`: a pointer, `none` when it is `nil` (a JSON
`null` inside the array decodes to a nil pointer). -/
abbrev WorkbookPtr := Option Workbook

/-! ## The library functions that `DownloadWorkbookFile` calls -/

/-- The letters `A`-`Z` to `a`-`z`, every other rune to itself. -/
def asciiLower (c : Char) : Char :=
  if 'A' ≤ c ∧ c ≤ 'Z' then Char.ofNat (c.toNat + 32) else c

/-- Lower-case mapping of one rune, as `unicode.ToLower`, on the runes whose image
is ASCII: `A`-`Z`, the Kelvin sign U+212A (to `k`) and U+0130 (to `i`).  Go maps
every other rune to a non-ASCII rune; it is kept as it is, which makes no
difference to a search for an ASCII substring. -/
def lowerRune (c : Char) : Char :=
  if c = Char.ofNat 0x212A then 'k'
  else if c = Char.ofNat 0x130 then 'i'
  else asciiLower c

/-- Model of `strings.ToLower`. -/
def ToLower (s : String) : String := String.mk (s.toList.map lowerRune)

/-- Representative of the simple case-folding orbit of a rune, for the orbits that
contain an ASCII letter: `A`-`Z` with `a`-`z`, the Kelvin sign U+212A with `k`, the
long s U+017F with `s`.  Every other rune stands for itself. -/
def foldRune (c : Char) : Char :=
  if c = Char.ofNat 0x212A then 'k'
  else if c = Char.ofNat 0x17F then 's'
  else asciiLower c

/-- Model of `strings.EqualFold`: rune by rune, equal up to simple case folding.
Exact whenever one argument is ASCII, as at its only call (line 54). -/
def EqualFold (s t : String) : Bool :=
  decide (s.toList.map foldRune = t.toList.map foldRune)

/-- Whether `s` starts with `p`. -/
def hasPrefix : List Char → List Char → Bool
  | _, [] => true
  | [], _ :: _ => false
  | c :: cs, p :: ps => c == p && hasPrefix cs ps

/-- Whether `sub` occurs in `s` at some position. -/
def containsAt : List Char → List Char → Bool
  | [], sub => hasPrefix [] sub
  | c :: cs, sub => hasPrefix (c :: cs) sub || containsAt cs sub

/-- Model of `strings.Contains`. -/
def Contains (s substr : String) : Bool := containsAt s.toList substr.toList

/-- The elements of a path between its slashes. -/
def splitSlash : List Char → List (List Char)
  | [] => [[]]
  | c :: cs =>
    if c = '/' then [] :: splitSlash cs
    else
      match splitSlash cs with
      | [] => [[c]]
      | e :: es => (c :: e) :: es

/-- One element of the path in `filepath.Clean`; `stack` holds the elements kept
so far, the last one first. -/
def cleanStep (rooted : Bool) (stack : List (List Char)) (e : List Char) :
    List (List Char) :=
  if e = [] ∨ e = ['.'] then stack
  else if e = ['.', '.'] then
    match stack with
    | [] => if rooted then [] else [e]
    | top :: rest => if top = ['.', '.'] then e :: stack else rest
  else e :: stack

/-- Model of `filepath.Clean` with `/` as the separator. -/
def Clean (path : List Char) : List Char :=
  let rooted := hasPrefix path ['/']
  let kept := ((splitSlash path).foldl (cleanStep rooted) []).reverse
  let out := (if rooted then ['/'] else []) ++ List.intercalate ['/'] kept
  if out = [] then ['.'] else out

/-- Model of `filepath.Join` for two elements, with `/` as the separator: empty
elements before the first non-empty one are ignored, the rest is joined by the
separator and cleaned. -/
def Join (a b : String) : String :=
  if a ≠ "" then String.mk (Clean (a.toList ++ '/' :: b.toList))
  else if b ≠ "" then String.mk (Clean b.toList)
  else ""

/-! ## DownloadWorkbookFile (lines 39-76) -/

/-- File contents and response bodies. -/
abbrev Bytes := List UInt8

/-- The filesystem: a map from paths to contents. -/
abbrev FileSystem := String → Option Bytes

/-- Response headers: the values stored under each (canonical) key. -/
structure HttpHeader where
  values : String → List String

/-- Model of `http.Header.Get`: the first value of the key, `""` when there is none. -/
def HttpHeader.Get (h : HttpHeader) (key : String) : String :=
  (h.values key).headD ""

/-- A response body: the bytes it delivers, and the error that ends the stream
when it does not end with `io.EOF`. -/
structure HttpBody where
  data : Bytes
  readErr : Option String

/-- The part of `*http.Response` that the function uses. -/
structure Response where
  Header : HttpHeader
  Body : HttpBody

/-- What the network and the operating system do during one call. -/
structure World where
  /-- The result of `http.Get(url)`. -/
  Get : String → Except String Response
  /-- The error of `os.Create(name)`, if it fails. -/
  createErr : String → Option String
  /-- The number of bytes after which writing to the file fails, with the error. -/
  writeErr : String → Option (Nat × String)

/-- Model of `io.Copy(out, res.Body)`: the bytes that reach the file, and the error.
A write that fails after `n` bytes ends the copy there; otherwise all the data is
written and the error is the body's. -/
def Copy (fault : Option (Nat × String)) (src : HttpBody) : Bytes × Option Error :=
  match fault with
  | some (n, e) =>
    if n < src.data.length then (src.data.take n, some (Error.external e))
    else (src.data, src.readErr.map Error.external)
  | none => (src.data, src.readErr.map Error.external)

/-- The results of `DownloadWorkbookFile` and its effects. -/
structure DownloadResult where
  filename : String
  err : Option Error
  /-- The filesystem after the call. -/
  fs : FileSystem
  /-- Whether the call read from the response body. -/
  bodyRead : Bool

/-- Line 44: the URL of the download request. -/
def workbookURL (repoURL : String) : String :=
  "https://public.tableau.com/workbooks/" ++ repoURL ++ "?format=twb"

/-- Lines 43-76: `DownloadWorkbookFile`. -/
def DownloadWorkbookFile (w : World) (fs : FileSystem) (repoURL directory : String) :
    DownloadResult :=
  let url := workbookURL repoURL
  match w.Get url with
  | Except.error e =>
    { filename := "", err := some (Error.external e), fs := fs, bodyRead := false }
  | Except.ok res =>
    let contentType := res.Header.Get "Content-Type"
    if !EqualFold contentType "application/x-twb" then
      { filename := "", err := some ErrWorkbookNotFound, fs := fs, bodyRead := false }
    else
      let filename := Join directory repoURL
      let disposition := res.Header.Get "Content-Disposition"
      let filename :=
        if Contains (ToLower disposition) ".twbx" then filename ++ ".twbx"
        else filename ++ ".twb"
      match w.createErr filename with
      | some e =>
        { filename := filename, err := some (Error.external e), fs := fs,
          bodyRead := false }
      | none =>
        let copied := Copy (w.writeErr filename) res.Body
        { filename := filename, err := copied.2,
          fs := Function.update fs filename (some copied.1), bodyRead := true }

/-! ## AllWorkbooks (lines 78-112) -/

/-- Line 80: `const COUNT = 20`. -/
def COUNT : Nat := 20

/-- The variable parts of one listing request (lines 86-89). -/
structure Request where
  username : String
  no_cache : Int
  index : Nat
  count : Nat
deriving DecidableEq, Repr

/-- Line 87: the request's `Uri`. -/
def Request.Uri (r : Request) : String :=
  "https://public.tableau.com/profile/api/" ++ r.username ++ "/workbooks?no_cache=" ++
    toString r.no_cache ++ "&index=" ++ toString r.index ++ "&count=" ++ toString r.count

/-- The outcome of one request and of decoding its body. -/
inductive PageResult where
  /-- The call of `Do()` returned an error (line 90). -/
  | requestFailed (e : String)
  /-- The call of `FromJsonTo` returned an error (line 96). -/
  | decodeFailed (e : String)
  /-- The body decoded to this slice. -/
  | decoded (workbooks : List WorkbookPtr)
deriving DecidableEq, Repr

/-- The clock and the listing endpoint, both as functions of the number of
requests made before. -/
structure Server where
  /-- The value of `time.Now().Unix()`. -/
  now : Nat → Int
  /-- The answer to a request. -/
  Do : Nat → Request → PageResult

/-- The variables of `AllWorkbooks` (lines 81-84), and the requests issued so far.
`index` is a Go `int`; it never exceeds `len(all)`, so it does not overflow. -/
structure LoopState where
  index : Nat
  all : List WorkbookPtr
  err : Option Error
  requests : List Request

/-- Lines 86-108: one iteration of the loop; `true` when it ends in `break`. -/
def loopBody (srv : Server) (username : String) (s : LoopState) : LoopState × Bool :=
  let n := s.requests.length
  let req : Request := ⟨username, srv.now n, s.index, COUNT⟩
  let s := { s with requests := s.requests ++ [req] }
  match srv.Do n req with
  | PageResult.requestFailed e => ({ s with err := some (Error.external e) }, true)
  | PageResult.decodeFailed e => ({ s with err := some (Error.external e) }, true)
  | PageResult.decoded workbooks =>
    let s := { s with err := none, all := workbooks.foldl (fun all w => all ++ [w]) s.all }
    if workbooks.length < COUNT then (s, true)
    else ({ s with index := s.index + workbooks.length }, false)

/-- Lines 85-109: at most `fuel` iterations of the loop; `true` when it has ended. -/
def loop (srv : Server) (username : String) : Nat → LoopState → LoopState × Bool
  | 0, s => (s, false)
  | fuel + 1, s =>
    match loopBody srv username s with
    | (s', true) => (s', true)
    | (s', false) => loop srv username fuel s'

/-- The state in which `AllWorkbooks` enters its loop (lines 81-84). -/
def initState : LoopState := { index := 0, all := [], err := none, requests := [] }

/-- Lines 79-109: the state of `AllWorkbooks` after at most `fuel` iterations. -/
def AllWorkbooksRun (srv : Server) (username : String) (fuel : Nat) : LoopState × Bool :=
  loop srv username fuel initState

/-- Lines 79-112: `AllWorkbooks`; `none` when the loop has not ended within `fuel`
iterations. -/
def AllWorkbooks (srv : Server) (username : String) (fuel : Nat) :
    Option (List WorkbookPtr × Option Error) :=
  match AllWorkbooksRun srv username fuel with
  | (s, true) => some (s.all, s.err)
  | (_, false) => none

/-! ## Notions used to state the properties -/

/-- A rune with no case-folding partner outside ASCII. -/
abbrev plainRune (t : Char) : Prop :=
  t ≠ 'k' ∧ t ≠ 's' ∧ t ≠ Char.ofNat 0x212A ∧ t ≠ Char.ofNat 0x17F

/-- The name of the file that lines 59-65 choose. -/
def targetName (directory repoURL : String) (res : Response) : String :=
  if Contains (ToLower (res.Header.Get "Content-Disposition")) ".twbx" then
    Join directory repoURL ++ ".twbx"
  else Join directory repoURL ++ ".twb"

/-- The two paths at which `DownloadWorkbookFile` can store a workbook. -/
def workbookFiles (directory repoURL : String) : List String :=
  [Join directory repoURL ++ ".twb", Join directory repoURL ++ ".twbx"]

/-- The slice a page result decodes to; empty when the request or the decoding
failed. -/
def PageResult.items : PageResult → List WorkbookPtr
  | PageResult.decoded workbooks => workbooks
  | _ => []

/-- The pages received in answer to the requests `reqs`, the first of which is the
request number `n`. -/
def received (srv : Server) : Nat → List Request → List (List WorkbookPtr)
  | _, [] => []
  | n, r :: rs => (srv.Do n r).items :: received srv (n + 1) rs

/-- The request that the loop builds as request number `n` when `index` has the
given value (lines 86-89). -/
def requestAt (srv : Server) (username : String) (n index : Nat) : Request :=
  { username := username, no_cache := srv.now n, index := index, count := COUNT }

/-- The server answers the request number `n`, asked at `index`, with the first of
`pages`, the next one, asked at `index` plus the length of that page, with the
second, and so on. -/
def Serves (srv : Server) (username : String) : Nat → Nat → List (List WorkbookPtr) → Prop
  | _, _, [] => True
  | n, index, p :: ps =>
    srv.Do n (requestAt srv username n index) = PageResult.decoded p ∧
      Serves srv username (n + 1) (index + p.length) ps

/-- Whether a server serves given pages can be computed. -/
instance instDecidableServes (srv : Server) (username : String) :
    (n index : Nat) → (pages : List (List WorkbookPtr)) →
      Decidable (Serves srv username n index pages)
  | _, _, [] => isTrue trivial
  | n, index, p :: ps =>
    have := instDecidableServes srv username (n + 1) (index + p.length) ps
    inferInstanceAs (Decidable (_ ∧ _))

/-- The state after an iteration that received the full page `p`. -/
def stepFull (srv : Server) (username : String) (s : LoopState) (p : List WorkbookPtr) :
    LoopState :=
  { index := s.index + p.length, all := s.all ++ p, err := none,
    requests := s.requests ++ [requestAt srv username s.requests.length s.index] }

/-- The state after one iteration for each of `pages`, all of them full. -/
def advance (srv : Server) (username : String) : LoopState → List (List WorkbookPtr) → LoopState
  | s, [] => s
  | s, p :: ps => advance srv username (stepFull srv username s p) ps

/-- The requests of the iterations that receive `pages`, from the request number
`n` asked at `index`. -/
def requestsFor (srv : Server) (username : String) : Nat → Nat → List (List WorkbookPtr) →
    List Request
  | _, _, [] => []
  | n, index, p :: ps =>
    requestAt srv username n index :: requestsFor srv username (n + 1) (index + p.length) ps

/-! ## Example environments -/

/-- Headers with the given `Content-Type` and the given values of
`Content-Disposition`. -/
def headerOf (contentType : String) (disposition : List String) : HttpHeader :=
  { values := fun key =>
      if key = "Content-Type" then [contentType]
      else if key = "Content-Disposition" then disposition
      else [] }

/-- A world in which every request gets the response `res` and the disk works. -/
def worldOf (res : Response) : World :=
  { Get := fun _ => Except.ok res, createErr := fun _ => none, writeErr := fun _ => none }

/-- The server sends a packaged workbook. -/
def packagedWorld : World :=
  worldOf { Header := headerOf "application/x-twb" ["attachment; filename=Sales.TWBX"],
            Body := { data := [80, 75, 3, 4], readErr := none } }

/-- The server sends a plain workbook, without a `Content-Disposition` header. -/
def plainWorld : World :=
  worldOf { Header := headerOf "Application/X-TWB" [],
            Body := { data := [60, 63], readErr := none } }

/-- The server answers with an HTML page. -/
def missingWorld : World :=
  worldOf { Header := headerOf "text/html; charset=utf-8" [],
            Body := { data := [60, 104], readErr := none } }

/-- The network is down. -/
def offlineWorld : World :=
  { Get := fun _ => Except.error "dial tcp: no route to host",
    createErr := fun _ => none, writeErr := fun _ => none }

/-- A filesystem without files. -/
def emptyFS : FileSystem := fun _ => none

/-- A workbook as the listing endpoint describes it. -/
def sampleWorkbook : Workbook :=
  { RepoURL := "Sales", Size := 1024, Title := "Sales", Description := "",
    ShowInProfile := true, AllowDataAccess := false }

/-- A page of `n` workbooks. -/
def pageOf (n : Nat) : List WorkbookPtr := List.replicate n (some sampleWorkbook)

/-- A server with 45 workbooks: 20 at index 0, 20 at index 20 and 5 at index 40. -/
def pagedServer : Server :=
  { now := fun n => 1700000000 + n,
    Do := fun _ req =>
      if req.index = 0 then PageResult.decoded (pageOf 20)
      else if req.index = 20 then PageResult.decoded (pageOf 20)
      else if req.index = 40 then PageResult.decoded (pageOf 5)
      else PageResult.decoded [] }

/-- A server that ignores the requested count: 25 workbooks at index 0 and 3 at
index 25. -/
def oversizedServer : Server :=
  { now := fun n => 1700000000 + n,
    Do := fun _ req =>
      if req.index = 0 then PageResult.decoded (pageOf 25)
      else if req.index = 25 then PageResult.decoded (pageOf 3)
      else PageResult.decoded [] }

/-- A server whose every page holds exactly 20 workbooks. -/
def endlessServer : Server :=
  { now := fun n => 1700000000 + n, Do := fun _ _ => PageResult.decoded (pageOf 20) }

/-- A server that answers the first request with a full page and fails at the
second. -/
def failingServer : Server :=
  { now := fun n => 1700000000 + n,
    Do := fun n _ =>
      if n = 0 then PageResult.decoded (pageOf 20)
      else PageResult.requestFailed "connection reset by peer" }

/-- A workbook as `encoding/json` decodes the object `{"title": "Untitled"}`: the
fields that the object lacks keep their zero values. -/
def blankWorkbook : Workbook :=
  { RepoURL := "", Size := 0, Title := "Untitled", Description := "",
    ShowInProfile := false, AllowDataAccess := false }

/-- A server whose only page is the array `[{"title": "Untitled"}]`. -/
def blankServer : Server :=
  { now := fun n => 1700000000 + n, Do := fun _ _ => PageResult.decoded [some blankWorkbook] }

/-! ## Lemmas on the string functions -/

theorem asciiLower_of_fixed (c t : Char) (hk : t ≠ 'k') (hs : t ≠ 's')
    (hK : t ≠ Char.ofNat 0x212A) (hS : t ≠ Char.ofNat 0x17F) :
    foldRune c = t ↔ asciiLower c = t := by
  unfold foldRune
  by_cases h1 : c = Char.ofNat 0x212A
  · subst h1
    have e : asciiLower (Char.ofNat 0x212A) = Char.ofNat 0x212A := by decide
    rw [if_pos rfl, e]
    exact ⟨fun h => absurd h.symm hk, fun h => absurd h.symm hK⟩
  · rw [if_neg h1]
    by_cases h2 : c = Char.ofNat 0x17F
    · subst h2
      have e : asciiLower (Char.ofNat 0x17F) = Char.ofNat 0x17F := by decide
      rw [if_pos rfl, e]
      exact ⟨fun h => absurd h.symm hs, fun h => absurd h.symm hS⟩
    · rw [if_neg h2]

theorem map_foldRune_eq_iff (ts : List Char) (h : ∀ t ∈ ts, plainRune t) :
    ∀ cs : List Char, cs.map foldRune = ts ↔ cs.map asciiLower = ts := by
  induction ts with
  | nil => intro cs; cases cs <;> simp
  | cons t ts ih =>
    intro cs
    cases cs with
    | nil => simp
    | cons c cs =>
      have ht := h t (List.mem_cons_self _ _)
      have hts : ∀ u ∈ ts, plainRune u := fun u hu => h u (List.mem_cons_of_mem _ hu)
      simp only [List.map_cons, List.cons.injEq]
      rw [asciiLower_of_fixed c t ht.1 ht.2.1 ht.2.2.1 ht.2.2.2, ih hts cs]

theorem equalFold_twb_iff (ct : String) :
    EqualFold ct "application/x-twb" = true ↔
      ct.toList.map asciiLower = "application/x-twb".toList := by
  unfold EqualFold
  have e : ("application/x-twb" : String).toList.map foldRune =
      ("application/x-twb" : String).toList := by decide
  rw [decide_eq_true_iff, e]
  exact map_foldRune_eq_iff _ (by decide) _

/-! ## Lemmas on DownloadWorkbookFile -/

theorem copy_err_ne_notFound (fault : Option (Nat × String)) (src : HttpBody) :
    (Copy fault src).2 ≠ some ErrWorkbookNotFound := by
  unfold Copy
  rcases fault with _ | ⟨n, e⟩
  · cases src.readErr <;> simp
  · by_cases h : n < src.data.length
    · simp [h]
    · cases hr : src.readErr <;> simp [h, hr]

theorem copy_ok (fault : Option (Nat × String)) (src : HttpBody)
    (h : (Copy fault src).2 = none) : (Copy fault src).1 = src.data := by
  unfold Copy at h ⊢
  rcases fault with _ | ⟨n, e⟩
  · rfl
  · by_cases hn : n < src.data.length
    · simp [hn] at h
    · simp [hn]

/-- The four ways through `DownloadWorkbookFile`. -/
theorem download_cases (w : World) (fs : FileSystem) (repoURL directory : String) :
    (∃ e, w.Get (workbookURL repoURL) = Except.error e ∧
      DownloadWorkbookFile w fs repoURL directory =
        { filename := "", err := some (Error.external e), fs := fs, bodyRead := false }) ∨
    (∃ res, w.Get (workbookURL repoURL) = Except.ok res ∧
      EqualFold (res.Header.Get "Content-Type") "application/x-twb" = false ∧
      DownloadWorkbookFile w fs repoURL directory =
        { filename := "", err := some ErrWorkbookNotFound, fs := fs, bodyRead := false }) ∨
    (∃ res e, w.Get (workbookURL repoURL) = Except.ok res ∧
      EqualFold (res.Header.Get "Content-Type") "application/x-twb" = true ∧
      w.createErr (targetName directory repoURL res) = some e ∧
      DownloadWorkbookFile w fs repoURL directory =
        { filename := targetName directory repoURL res, err := some (Error.external e),
          fs := fs, bodyRead := false }) ∨
    (∃ res, w.Get (workbookURL repoURL) = Except.ok res ∧
      EqualFold (res.Header.Get "Content-Type") "application/x-twb" = true ∧
      w.createErr (targetName directory repoURL res) = none ∧
      DownloadWorkbookFile w fs repoURL directory =
        { filename := targetName directory repoURL res,
          err := (Copy (w.writeErr (targetName directory repoURL res)) res.Body).2,
          fs := Function.update fs (targetName directory repoURL res)
            (some (Copy (w.writeErr (targetName directory repoURL res)) res.Body).1),
          bodyRead := true }) := by
  cases hget : w.Get (workbookURL repoURL) with
  | error e =>
    refine Or.inl ⟨e, rfl, ?_⟩
    simp only [DownloadWorkbookFile, hget]
  | ok res =>
    cases hct : EqualFold (res.Header.Get "Content-Type") "application/x-twb" with
    | false =>
      refine Or.inr (Or.inl ⟨res, rfl, hct, ?_⟩)
      simp [DownloadWorkbookFile, hget, hct]
    | true =>
      cases hc : w.createErr (targetName directory repoURL res) with
      | some e =>
        refine Or.inr (Or.inr (Or.inl ⟨res, e, rfl, hct, hc, ?_⟩))
        simp only [targetName] at hc
        simp [DownloadWorkbookFile, hget, hct, hc, targetName]
      | none =>
        refine Or.inr (Or.inr (Or.inr ⟨res, rfl, hct, hc, ?_⟩))
        simp only [targetName] at hc
        simp [DownloadWorkbookFile, hget, hct, hc, targetName]

theorem hasPrefix_append (m b : List Char) : hasPrefix (m ++ b) m = true := by
  induction m with
  | nil => cases b <;> rfl
  | cons c m ih => simp [hasPrefix, ih]

theorem containsAt_of_hasPrefix (s m : List Char) (h : hasPrefix s m = true) :
    containsAt s m = true := by
  cases s with
  | nil => simpa [containsAt] using h
  | cons c cs => simp [containsAt, h]

theorem containsAt_append (a m b : List Char) : containsAt (a ++ (m ++ b)) m = true := by
  induction a with
  | nil => exact containsAt_of_hasPrefix _ _ (hasPrefix_append m b)
  | cons c a ih => simp [containsAt, ih]

theorem contains_toLower_of_marker (pre marker post : String)
    (h : ToLower marker = ".twbx") :
    Contains (ToLower (pre ++ marker ++ post)) ".twbx" = true := by
  have hm : marker.toList.map lowerRune = (".twbx" : String).toList := by
    have := congrArg String.toList h
    simpa [ToLower] using this
  unfold Contains ToLower
  simp only [String.toList, String.data_append, List.map_append, List.append_assoc] at hm ⊢
  rw [hm]
  exact containsAt_append _ _ _

theorem twb_ne_twbx (base : String) : base ++ ".twb" ≠ base ++ ".twbx" := by
  intro h
  have := congrArg String.data h
  simp only [String.data_append, List.append_cancel_left_eq] at this
  exact absurd this (by decide)

/-! ## Lemmas on the loop of AllWorkbooks -/

theorem foldl_append_singleton (ws acc : List WorkbookPtr) :
    ws.foldl (fun all w => all ++ [w]) acc = acc ++ ws := by
  induction ws generalizing acc with
  | nil => simp
  | cons w ws ih => simp [ih]

theorem loopBody_requestFailed (srv : Server) (username : String) (s : LoopState) (e : String)
    (h : srv.Do s.requests.length (requestAt srv username s.requests.length s.index) =
      PageResult.requestFailed e) :
    loopBody srv username s =
      ({ index := s.index, all := s.all, err := some (Error.external e),
         requests := s.requests ++ [requestAt srv username s.requests.length s.index] },
        true) := by
  unfold requestAt at h
  simp only [loopBody, h, requestAt]

theorem loopBody_decodeFailed (srv : Server) (username : String) (s : LoopState) (e : String)
    (h : srv.Do s.requests.length (requestAt srv username s.requests.length s.index) =
      PageResult.decodeFailed e) :
    loopBody srv username s =
      ({ index := s.index, all := s.all, err := some (Error.external e),
         requests := s.requests ++ [requestAt srv username s.requests.length s.index] },
        true) := by
  unfold requestAt at h
  simp only [loopBody, h, requestAt]

theorem loopBody_short (srv : Server) (username : String) (s : LoopState)
    (p : List WorkbookPtr)
    (h : srv.Do s.requests.length (requestAt srv username s.requests.length s.index) =
      PageResult.decoded p)
    (hp : p.length < COUNT) :
    loopBody srv username s =
      ({ index := s.index, all := s.all ++ p, err := none,
         requests := s.requests ++ [requestAt srv username s.requests.length s.index] },
        true) := by
  unfold requestAt at h
  simp only [loopBody, h, requestAt, foldl_append_singleton, hp, if_true]

theorem loopBody_full (srv : Server) (username : String) (s : LoopState)
    (p : List WorkbookPtr)
    (h : srv.Do s.requests.length (requestAt srv username s.requests.length s.index) =
      PageResult.decoded p)
    (hp : COUNT ≤ p.length) :
    loopBody srv username s = (stepFull srv username s p, false) := by
  unfold requestAt at h
  have hn : ¬ p.length < COUNT := Nat.not_lt.mpr hp
  simp only [loopBody, h, requestAt, foldl_append_singleton, hn, if_false, stepFull]

theorem advance_all (srv : Server) (username : String) (pages : List (List WorkbookPtr)) :
    ∀ s, (advance srv username s pages).all = s.all ++ pages.flatten := by
  induction pages with
  | nil => intro s; simp [advance]
  | cons p ps ih => intro s; simp [advance, ih, stepFull]

theorem advance_index (srv : Server) (username : String) (pages : List (List WorkbookPtr)) :
    ∀ s, (advance srv username s pages).index = s.index + pages.flatten.length := by
  induction pages with
  | nil => intro s; simp [advance]
  | cons p ps ih => intro s; simp [advance, ih, stepFull, Nat.add_assoc]

theorem advance_requests (srv : Server) (username : String)
    (pages : List (List WorkbookPtr)) :
    ∀ s, (advance srv username s pages).requests =
      s.requests ++ requestsFor srv username s.requests.length s.index pages := by
  induction pages with
  | nil => intro s; simp [advance, requestsFor]
  | cons p ps ih => intro s; simp [advance, ih, stepFull, requestsFor]

theorem requestsFor_length (srv : Server) (username : String)
    (pages : List (List WorkbookPtr)) :
    ∀ n index, (requestsFor srv username n index pages).length = pages.length := by
  induction pages with
  | nil => intro n index; rfl
  | cons p ps ih => intro n index; simp [requestsFor, ih]

theorem serves_append (srv : Server) (username : String) (pages : List (List WorkbookPtr))
    (last : List WorkbookPtr) :
    ∀ n index, Serves srv username n index (pages ++ [last]) ↔
      Serves srv username n index pages ∧
        srv.Do (n + pages.length)
            (requestAt srv username (n + pages.length) (index + pages.flatten.length)) =
          PageResult.decoded last := by
  induction pages with
  | nil => intro n index; simp [Serves]
  | cons p ps ih =>
    intro n index
    have e1 : n + (p :: ps).length = n + 1 + ps.length := by
      simp only [List.length_cons]; omega
    have e2 : index + (p :: ps).flatten.length = index + p.length + ps.flatten.length := by
      simp only [List.flatten_cons, List.length_append]; omega
    rw [e1, e2, List.cons_append]
    simp only [Serves]
    rw [ih (n + 1) (index + p.length), and_assoc]

/-- Iterations that receive full pages do not end the loop. -/
theorem loop_advance (srv : Server) (username : String) (pages : List (List WorkbookPtr)) :
    ∀ s, Serves srv username s.requests.length s.index pages →
      (∀ p ∈ pages, COUNT ≤ p.length) →
      ∀ fuel, loop srv username (pages.length + fuel) s =
        loop srv username fuel (advance srv username s pages) := by
  induction pages with
  | nil => intro s _ _ fuel; simp [advance]
  | cons p ps ih =>
    intro s hs hfull fuel
    have hp := hfull p (List.mem_cons_self _ _)
    have e : (p :: ps).length + fuel = (ps.length + fuel) + 1 := by
      simp only [List.length_cons]; omega
    rw [e, loop, loopBody_full srv username s p hs.1 hp]
    simp only [advance]
    apply ih
    · simpa [stepFull] using hs.2
    · exact fun q hq => hfull q (List.mem_cons_of_mem _ hq)

/-- Every run is a sequence of iterations that receive full pages, followed, when
the loop has ended, by one iteration that ends in `break`. -/
theorem loop_shape (srv : Server) (username : String) :
    ∀ fuel s, ∃ pages, Serves srv username s.requests.length s.index pages ∧
      (∀ p ∈ pages, COUNT ≤ p.length) ∧
      ((pages.length = fuel ∧
          loop srv username fuel s = (advance srv username s pages, false)) ∨
       (pages.length < fuel ∧
          (loopBody srv username (advance srv username s pages)).2 = true ∧
          loop srv username fuel s = loopBody srv username (advance srv username s pages))) := by
  intro fuel
  induction fuel with
  | zero => intro s; exact ⟨[], trivial, by simp, Or.inl ⟨rfl, rfl⟩⟩
  | succ fuel ih =>
    intro s
    cases hdo : srv.Do s.requests.length (requestAt srv username s.requests.length s.index) with
    | requestFailed e =>
      refine ⟨[], trivial, by simp, Or.inr ⟨by simp, ?_, ?_⟩⟩
      · simp [advance, loopBody_requestFailed srv username s e hdo]
      · simp [advance, loop, loopBody_requestFailed srv username s e hdo]
    | decodeFailed e =>
      refine ⟨[], trivial, by simp, Or.inr ⟨by simp, ?_, ?_⟩⟩
      · simp [advance, loopBody_decodeFailed srv username s e hdo]
      · simp [advance, loop, loopBody_decodeFailed srv username s e hdo]
    | decoded p =>
      by_cases hp : p.length < COUNT
      · refine ⟨[], trivial, by simp, Or.inr ⟨by simp, ?_, ?_⟩⟩
        · simp [advance, loopBody_short srv username s p hdo hp]
        · simp [advance, loop, loopBody_short srv username s p hdo hp]
      · have hp2 : COUNT ≤ p.length := Nat.not_lt.mp hp
        obtain ⟨ps, hs, hfull, hshape⟩ := ih (stepFull srv username s p)
        refine ⟨p :: ps, ⟨hdo, by simpa [stepFull] using hs⟩, ?_, ?_⟩
        · intro q hq
          rcases List.mem_cons.mp hq with rfl | hq
          · exact hp2
          · exact hfull q hq
        · simp only [loop, loopBody_full srv username s p hdo hp2, advance, List.length_cons]
          rcases hshape with ⟨hl, hr⟩ | ⟨hl, hb, hr⟩
          · exact Or.inl ⟨by omega, hr⟩
          · exact Or.inr ⟨by omega, hb, hr⟩

theorem loopBody_requests (srv : Server) (username : String) (s : LoopState) :
    (loopBody srv username s).1.requests =
      s.requests ++ [requestAt srv username s.requests.length s.index] := by
  cases hdo : srv.Do s.requests.length (requestAt srv username s.requests.length s.index) with
  | requestFailed e => rw [loopBody_requestFailed srv username s e hdo]
  | decodeFailed e => rw [loopBody_decodeFailed srv username s e hdo]
  | decoded p =>
    by_cases hp : p.length < COUNT
    · rw [loopBody_short srv username s p hdo hp]
    · rw [loopBody_full srv username s p hdo (Nat.not_lt.mp hp)]; rfl

theorem advance_init_requests_length (srv : Server) (username : String)
    (pages : List (List WorkbookPtr)) :
    (advance srv username initState pages).requests.length = pages.length := by
  simp [advance_requests, requestsFor_length, initState]

theorem advance_init_index (srv : Server) (username : String)
    (pages : List (List WorkbookPtr)) :
    (advance srv username initState pages).index = pages.flatten.length := by
  simp [advance_index, initState]

/-- The requests of a run: those of the full pages, and the one of the iteration
that ended the loop, if it has ended. -/
theorem run_requests (srv : Server) (username : String) (fuel : Nat) :
    ∃ pages tail, Serves srv username 0 0 pages ∧
      (tail = [] ∨ tail = [requestAt srv username pages.length pages.flatten.length]) ∧
      (AllWorkbooksRun srv username fuel).1.requests =
        requestsFor srv username 0 0 pages ++ tail := by
  obtain ⟨pages, hs, _, hshape⟩ := loop_shape srv username fuel initState
  rcases hshape with ⟨_, hr⟩ | ⟨_, _, hr⟩
  · refine ⟨pages, [], hs, Or.inl rfl, ?_⟩
    rw [AllWorkbooksRun, hr]
    simp [advance_requests, initState]
  · refine ⟨pages, _, hs, Or.inr rfl, ?_⟩
    rw [AllWorkbooksRun, hr, loopBody_requests, advance_init_requests_length,
      advance_init_index]
    simp [advance_requests, initState]

theorem requests_split (srv : Server) (username : String) (pages : List (List WorkbookPtr)) :
    ∀ (n index : Nat) (tail before : List Request) (r : Request) (after : List Request),
      Serves srv username n index pages →
      (tail = [] ∨
        tail = [requestAt srv username (n + pages.length) (index + pages.flatten.length)]) →
      requestsFor srv username n index pages ++ tail = before ++ r :: after →
      r = requestAt srv username (n + before.length)
        (index + (received srv n before).flatten.length) := by
  induction pages with
  | nil =>
    intro n index tail before r after _ htail h
    rcases htail with rfl | rfl
    · cases before <;> simp [requestsFor] at h
    · cases before with
      | nil =>
        simp only [requestsFor, List.nil_append, List.cons.injEq] at h
        simpa [received] using h.1.symm
      | cons b bs =>
        simp only [requestsFor, List.nil_append, List.cons_append, List.cons.injEq] at h
        cases bs <;> simp at h
  | cons p ps ih =>
    intro n index tail before r after hs htail h
    cases before with
    | nil =>
      simp only [requestsFor, List.cons_append, List.nil_append, List.cons.injEq] at h
      simpa [received] using h.1.symm
    | cons b bs =>
      simp only [requestsFor, List.cons_append, List.cons.injEq] at h
      have htail2 : tail = [] ∨ tail = [requestAt srv username (n + 1 + ps.length)
          (index + p.length + ps.flatten.length)] := by
        rcases htail with h0 | h1
        · exact Or.inl h0
        · refine Or.inr ?_
          rw [h1]
          have e1 : n + (p :: ps).length = n + 1 + ps.length := by
            simp only [List.length_cons]; omega
          have e2 : index + (p :: ps).flatten.length =
              index + p.length + ps.flatten.length := by
            simp only [List.flatten_cons, List.length_append]; omega
          rw [e1, e2]
      have hr := ih (n + 1) (index + p.length) tail bs r after hs.2 htail2 h.2
      have hb : (srv.Do n b).items = p := by
        rw [← h.1, hs.1]; rfl
      rw [hr]
      have e1 : n + (b :: bs).length = n + 1 + bs.length := by
        simp only [List.length_cons]; omega
      have e2 : index + (received srv n (b :: bs)).flatten.length =
          index + p.length + (received srv (n + 1) bs).flatten.length := by
        simp only [received, List.flatten_cons, List.length_append, hb]; omega
      rw [e1, e2]

theorem serves_prefix (srv : Server) (username : String) (a b : List (List WorkbookPtr)) :
    ∀ n index, Serves srv username n index (a ++ b) → Serves srv username n index a := by
  induction a with
  | nil => intro n index _; trivial
  | cons p ps ih => intro n index h; exact ⟨h.1, ih _ _ h.2⟩

theorem loop_succ_fst_of_break (srv : Server) (username : String) (s : LoopState) (fuel : Nat)
    (h : (loopBody srv username s).2 = true) :
    loop srv username (fuel + 1) s = loopBody srv username s := by
  rw [loop]
  rcases hb : loopBody srv username s with ⟨s2, b⟩
  rw [hb] at h
  cases h
  rfl

theorem run_full_pages (srv : Server) (username : String) (pages : List (List WorkbookPtr))
    (hs : Serves srv username 0 0 pages) (hfull : ∀ p ∈ pages, COUNT ≤ p.length)
    (fuel : Nat) :
    AllWorkbooksRun srv username (pages.length + fuel) =
      loop srv username fuel (advance srv username initState pages) :=
  loop_advance srv username pages initState hs hfull fuel

theorem run_within_full_pages (srv : Server) (username : String)
    (pages : List (List WorkbookPtr))
    (hs : Serves srv username 0 0 pages) (hfull : ∀ p ∈ pages, COUNT ≤ p.length)
    (fuel : Nat) (hfuel : fuel ≤ pages.length) :
    AllWorkbooks srv username fuel = none ∧
      (AllWorkbooksRun srv username fuel).1.requests.length = fuel := by
  have hsplit : pages = pages.take fuel ++ pages.drop fuel := (List.take_append_drop _ _).symm
  have hs2 : Serves srv username 0 0 (pages.take fuel) := by
    rw [hsplit] at hs; exact serves_prefix srv username _ _ 0 0 hs
  have hfull2 : ∀ p ∈ pages.take fuel, COUNT ≤ p.length :=
    fun p hp => hfull p (List.mem_of_mem_take hp)
  have hlen : (pages.take fuel).length = fuel := by
    rw [List.length_take]; omega
  have hrun := run_full_pages srv username (pages.take fuel) hs2 hfull2 0
  rw [hlen, Nat.add_zero, loop] at hrun
  refine ⟨by simp [AllWorkbooks, hrun], ?_⟩
  rw [hrun, advance_init_requests_length, hlen]

theorem received_requestsFor (srv : Server) (username : String)
    (pages : List (List WorkbookPtr)) (tail : List Request) :
    ∀ n index, Serves srv username n index pages →
      received srv n (requestsFor srv username n index pages ++ tail) =
        pages ++ received srv (n + pages.length) tail := by
  induction pages with
  | nil => intro n index _; simp [requestsFor]
  | cons p ps ih =>
    intro n index hs
    have e : n + (p :: ps).length = n + 1 + ps.length := by
      simp only [List.length_cons]; omega
    rw [e]
    have hi := ih (n + 1) (index + p.length) hs.2
    simp only [requestsFor, List.cons_append, received, hs.1, PageResult.items]
    exact congrArg (List.cons p) hi

/-- The shape of a run that has ended: full pages, then one iteration that fails
or receives a short page. -/
theorem run_result (srv : Server) (username : String) (fuel : Nat)
    (all : List WorkbookPtr) (err : Option Error)
    (h : AllWorkbooks srv username fuel = some (all, err)) :
    ∃ pages, Serves srv username 0 0 pages ∧ (∀ p ∈ pages, COUNT ≤ p.length) ∧
      (AllWorkbooksRun srv username fuel).1.requests =
        requestsFor srv username 0 0 pages ++
          [requestAt srv username pages.length pages.flatten.length] ∧
      ((∃ e, (srv.Do pages.length (requestAt srv username pages.length pages.flatten.length) =
            PageResult.requestFailed e ∨
          srv.Do pages.length (requestAt srv username pages.length pages.flatten.length) =
            PageResult.decodeFailed e) ∧
          all = pages.flatten ∧ err = some (Error.external e)) ∨
       (∃ last, srv.Do pages.length (requestAt srv username pages.length pages.flatten.length) =
            PageResult.decoded last ∧
          last.length < COUNT ∧ all = pages.flatten ++ last ∧ err = none)) := by
  obtain ⟨pages, hs, hfull, hshape⟩ := loop_shape srv username fuel initState
  refine ⟨pages, hs, hfull, ?_⟩
  rcases hshape with ⟨_, hr⟩ | ⟨_, hb, hr⟩
  · simp [AllWorkbooks, AllWorkbooksRun, hr] at h
  · have hreq : (AllWorkbooksRun srv username fuel).1.requests =
        requestsFor srv username 0 0 pages ++
          [requestAt srv username pages.length pages.flatten.length] := by
      rw [AllWorkbooksRun, hr, loopBody_requests, advance_init_requests_length,
        advance_init_index]
      simp [advance_requests, initState]
    refine ⟨hreq, ?_⟩
    have hout : all = (loopBody srv username (advance srv username initState pages)).1.all ∧
        err = (loopBody srv username (advance srv username initState pages)).1.err := by
      unfold AllWorkbooks AllWorkbooksRun at h
      rw [hr] at h
      rcases hlb : loopBody srv username (advance srv username initState pages) with ⟨s2, b⟩
      rw [hlb] at h hb
      cases hb
      simp only [Option.some.injEq, Prod.mk.injEq] at h
      exact ⟨h.1.symm, h.2.symm⟩
    have hall0 : (advance srv username initState pages).all = pages.flatten := by
      simp [advance_all, initState]
    cases hdo : srv.Do pages.length
        (requestAt srv username pages.length pages.flatten.length) with
    | requestFailed e =>
      have hdo2 := hdo
      rw [← advance_init_requests_length srv username pages,
        ← advance_init_index srv username pages] at hdo2
      rw [loopBody_requestFailed srv username _ e hdo2] at hout
      exact Or.inl ⟨e, Or.inl rfl, by rw [hout.1, hall0], hout.2⟩
    | decodeFailed e =>
      have hdo2 := hdo
      rw [← advance_init_requests_length srv username pages,
        ← advance_init_index srv username pages] at hdo2
      rw [loopBody_decodeFailed srv username _ e hdo2] at hout
      exact Or.inl ⟨e, Or.inr rfl, by rw [hout.1, hall0], hout.2⟩
    | decoded last =>
      have hdo2 := hdo
      rw [← advance_init_requests_length srv username pages,
        ← advance_init_index srv username pages] at hdo2
      by_cases hp : last.length < COUNT
      · rw [loopBody_short srv username _ last hdo2 hp] at hout
        exact Or.inr ⟨last, rfl, hp, by rw [hout.1, hall0], hout.2⟩
      · rw [loopBody_full srv username _ last hdo2 (Nat.not_lt.mp hp)] at hb
        cases hb

/-! ## DownloadWorkbookFile and IsNotFound -/

/-- C5: when the transport succeeded, `DownloadWorkbookFile` returns
`ErrWorkbookNotFound` if and only if the `Content-Type` of the response is not,
letter case ignored, `application/x-twb`; it then returns the empty file name,
leaves the filesystem as it was and has not read the body. -/
theorem download_notFound_iff (w : World) (fs : FileSystem) (repoURL directory : String)
    (res : Response) (hget : w.Get (workbookURL repoURL) = Except.ok res) :
    ((DownloadWorkbookFile w fs repoURL directory).err = some ErrWorkbookNotFound ↔
      (res.Header.Get "Content-Type").toList.map asciiLower ≠
        ("application/x-twb" : String).toList) ∧
    ((DownloadWorkbookFile w fs repoURL directory).err = some ErrWorkbookNotFound →
      (DownloadWorkbookFile w fs repoURL directory).filename = "" ∧
      (DownloadWorkbookFile w fs repoURL directory).fs = fs ∧
      (DownloadWorkbookFile w fs repoURL directory).bodyRead = false) := by
  rw [Ne, ← equalFold_twb_iff]
  rcases download_cases w fs repoURL directory with ⟨e, hg, hr⟩ | ⟨r, hg, hct, hr⟩ |
      ⟨r, e, hg, hct, _, hr⟩ | ⟨r, hg, hct, _, hr⟩
  · rw [hget] at hg; cases hg
  · rw [hget] at hg; cases hg
    rw [hr]; simp [hct]
  · rw [hget] at hg; cases hg
    rw [hr]; simp [hct]
  · rw [hget] at hg; cases hg
    rw [hr]; simp [hct, copy_err_ne_notFound]

/-- An HTML answer gives `ErrWorkbookNotFound` and no file name; an answer of type
`Application/X-TWB` is accepted. -/
theorem download_notFound_iff_witness :
    (DownloadWorkbookFile missingWorld emptyFS "Sales" "out").err = some ErrWorkbookNotFound ∧
    (DownloadWorkbookFile missingWorld emptyFS "Sales" "out").filename = "" ∧
    (DownloadWorkbookFile plainWorld emptyFS "Sales" "out").err = none ∧
    (DownloadWorkbookFile plainWorld emptyFS "Sales" "out").filename = "out/Sales.twb" :=
  ⟨(download_notFound_iff missingWorld emptyFS "Sales" "out" _ rfl).1.2 (by decide),
   ((download_notFound_iff missingWorld emptyFS "Sales" "out" _ rfl).2
      ((download_notFound_iff missingWorld emptyFS "Sales" "out" _ rfl).1.2 (by decide))).1,
   by decide, by decide⟩

/-- C6: after a successful call the returned file name is
`filepath.Join(directory, repoURL)` followed by `.twbx` when the lower-cased
`Content-Disposition` header contains `.twbx`, which it does as soon as the header
contains the marker in any letter case, and followed by `.twb` otherwise, also
when the header is absent or empty. -/
theorem download_filename (w : World) (fs : FileSystem) (repoURL directory : String)
    (hok : (DownloadWorkbookFile w fs repoURL directory).err = none) :
    ∃ res, w.Get (workbookURL repoURL) = Except.ok res ∧
      (Contains (ToLower (res.Header.Get "Content-Disposition")) ".twbx" = true →
        (DownloadWorkbookFile w fs repoURL directory).filename =
          Join directory repoURL ++ ".twbx") ∧
      (Contains (ToLower (res.Header.Get "Content-Disposition")) ".twbx" = false →
        (DownloadWorkbookFile w fs repoURL directory).filename =
          Join directory repoURL ++ ".twb") ∧
      (∀ pre marker post : String,
        res.Header.Get "Content-Disposition" = pre ++ marker ++ post →
        ToLower marker = ".twbx" →
        (DownloadWorkbookFile w fs repoURL directory).filename =
          Join directory repoURL ++ ".twbx") ∧
      (res.Header.values "Content-Disposition" = [] ∨
          res.Header.Get "Content-Disposition" = "" →
        (DownloadWorkbookFile w fs repoURL directory).filename =
          Join directory repoURL ++ ".twb") := by
  rcases download_cases w fs repoURL directory with ⟨e, _, hr⟩ | ⟨r, _, _, hr⟩ |
      ⟨r, e, _, _, _, hr⟩ | ⟨r, hg, _, _, hr⟩
  · rw [hr] at hok; cases hok
  · rw [hr] at hok; cases hok
  · rw [hr] at hok; cases hok
  · refine ⟨r, hg, ?_, ?_, ?_, ?_⟩
    · intro h; rw [hr]; simp [targetName, h]
    · intro h; rw [hr]; simp [targetName, h]
    · intro pre marker post hd hm
      have h := contains_toLower_of_marker pre marker post hm
      rw [← hd] at h
      rw [hr]; simp [targetName, h]
    · intro h
      have hd : r.Header.Get "Content-Disposition" = "" := by
        rcases h with h | h
        · simp [HttpHeader.Get, h]
        · exact h
      have hc : Contains (ToLower "") ".twbx" = false := by decide
      rw [hr]; simp [targetName, hd, hc]

/-- A disposition that names `Sales.TWBX` gives `out/Sales.twbx`; no disposition gives
`out/Sales.twb`. -/
theorem download_filename_witness :
    (DownloadWorkbookFile packagedWorld emptyFS "Sales" "out").filename = "out/Sales.twbx" ∧
    (DownloadWorkbookFile plainWorld emptyFS "Sales" "out").filename = "out/Sales.twb" ∧
    ∃ res, packagedWorld.Get (workbookURL "Sales") = Except.ok res ∧
      (Contains (ToLower (res.Header.Get "Content-Disposition")) ".twbx" = true →
        (DownloadWorkbookFile packagedWorld emptyFS "Sales" "out").filename =
          Join "out" "Sales" ++ ".twbx") :=
  ⟨by decide, by decide,
   (download_filename packagedWorld emptyFS "Sales" "out" (by decide)).imp
     (fun _ h => ⟨h.1, h.2.1⟩)⟩

/-- C7: a successful call writes exactly one path of the filesystem, the returned
file name, whose content is then the response body, and leaves every other path
as it was; a call that fails in the network request or in the content-type check
leaves the whole filesystem as it was. -/
theorem download_frame (w : World) (fs : FileSystem) (repoURL directory : String) :
    ((DownloadWorkbookFile w fs repoURL directory).err = none →
      ∃ res, w.Get (workbookURL repoURL) = Except.ok res ∧
        (DownloadWorkbookFile w fs repoURL directory).fs
            (DownloadWorkbookFile w fs repoURL directory).filename = some res.Body.data ∧
        ∀ path, path ≠ (DownloadWorkbookFile w fs repoURL directory).filename →
          (DownloadWorkbookFile w fs repoURL directory).fs path = fs path) ∧
    ((∃ e, w.Get (workbookURL repoURL) = Except.error e) →
      (DownloadWorkbookFile w fs repoURL directory).fs = fs) ∧
    (∀ res, w.Get (workbookURL repoURL) = Except.ok res →
      EqualFold (res.Header.Get "Content-Type") "application/x-twb" = false →
      (DownloadWorkbookFile w fs repoURL directory).fs = fs) := by
  rcases download_cases w fs repoURL directory with ⟨e, hg, hr⟩ | ⟨r, hg, hct, hr⟩ |
      ⟨r, e, hg, hct, _, hr⟩ | ⟨r, hg, hct, _, hr⟩
  · refine ⟨?_, ?_, ?_⟩
    · intro hok; rw [hr] at hok; cases hok
    · intro _; rw [hr]
    · intro res hres; rw [hg] at hres; cases hres
  · refine ⟨?_, ?_, ?_⟩
    · intro hok; rw [hr] at hok; cases hok
    · intro _; rw [hr]
    · intro _ _ _; rw [hr]
  · refine ⟨?_, ?_, ?_⟩
    · intro hok; rw [hr] at hok; cases hok
    · rintro ⟨e2, he2⟩; rw [hg] at he2; cases he2
    · intro res hres hf; rw [hg] at hres; cases hres; rw [hct] at hf; cases hf
  · refine ⟨?_, ?_, ?_⟩
    · intro hok
      rw [hr] at hok ⊢
      refine ⟨r, hg, ?_, ?_⟩
      · simp [copy_ok _ _ hok]
      · intro path hp
        exact Function.update_noteq hp _ _
    · rintro ⟨e2, he2⟩; rw [hg] at he2; cases he2
    · intro res hres hf; rw [hg] at hres; cases hres; rw [hct] at hf; cases hf

/-- A download into an empty filesystem stores the body at `out/Sales.twbx` and
nowhere else; without network, or with an HTML answer, the filesystem stays empty. -/
theorem download_frame_witness :
    (DownloadWorkbookFile packagedWorld emptyFS "Sales" "out").fs "out/Sales.twbx" =
        some [80, 75, 3, 4] ∧
    (DownloadWorkbookFile offlineWorld emptyFS "Sales" "out").fs = emptyFS ∧
    (DownloadWorkbookFile missingWorld emptyFS "Sales" "out").fs = emptyFS ∧
    ∃ res, packagedWorld.Get (workbookURL "Sales") = Except.ok res ∧
      (DownloadWorkbookFile packagedWorld emptyFS "Sales" "out").fs
          (DownloadWorkbookFile packagedWorld emptyFS "Sales" "out").filename =
        some res.Body.data ∧
      ∀ path, path ≠ (DownloadWorkbookFile packagedWorld emptyFS "Sales" "out").filename →
        (DownloadWorkbookFile packagedWorld emptyFS "Sales" "out").fs path = emptyFS path :=
  ⟨by decide,
   (download_frame offlineWorld emptyFS "Sales" "out").2.1 ⟨_, rfl⟩,
   (download_frame missingWorld emptyFS "Sales" "out").2.2 _ rfl (by decide),
   (download_frame packagedWorld emptyFS "Sales" "out").1 (by decide)⟩

/-- C9: `IsNotFound(err)` is true exactly when `err` is `ErrWorkbookNotFound`, so it
is false for `nil` and for every other error; and the error that
`DownloadWorkbookFile` returns satisfies it if and only if the call failed in the
content-type check, so not when the call succeeded or failed in the transport, in
creating the file or in copying the body. -/
theorem isNotFound_iff :
    (∀ err : Option Error, IsNotFound err = true ↔ err = some ErrWorkbookNotFound) ∧
    IsNotFound none = false ∧
    (∀ msg : String, IsNotFound (some (Error.external msg)) = false) ∧
    (∀ (w : World) (fs : FileSystem) (repoURL directory : String),
      (IsNotFound (DownloadWorkbookFile w fs repoURL directory).err = true ↔
        ∃ res, w.Get (workbookURL repoURL) = Except.ok res ∧
          EqualFold (res.Header.Get "Content-Type") "application/x-twb" = false)) ∧
    (∀ (w : World) (fs : FileSystem) (repoURL directory : String),
      (DownloadWorkbookFile w fs repoURL directory).err = none ∨
      (∃ e, w.Get (workbookURL repoURL) = Except.error e) ∨
      (∃ res, w.Get (workbookURL repoURL) = Except.ok res ∧
        EqualFold (res.Header.Get "Content-Type") "application/x-twb" = true) →
      IsNotFound (DownloadWorkbookFile w fs repoURL directory).err = false) := by
  have hiff : ∀ err : Option Error,
      IsNotFound err = true ↔ err = some ErrWorkbookNotFound := by
    intro err
    unfold IsNotFound
    by_cases h : err = some ErrWorkbookNotFound <;> simp [h]
  have hdl : ∀ (w : World) (fs : FileSystem) (repoURL directory : String),
      (IsNotFound (DownloadWorkbookFile w fs repoURL directory).err = true ↔
        ∃ res, w.Get (workbookURL repoURL) = Except.ok res ∧
          EqualFold (res.Header.Get "Content-Type") "application/x-twb" = false) := by
    intro w fs repoURL directory
    rw [hiff]
    rcases download_cases w fs repoURL directory with ⟨e, hg, hr⟩ | ⟨r, hg, hct, hr⟩ |
        ⟨r, e, hg, hct, _, hr⟩ | ⟨r, hg, hct, _, hr⟩
    · rw [hr]; simp [hg]
    · rw [hr]; simp [hg, hct]
    · rw [hr]; simp [hg, hct]
    · rw [hr]; simp [hg, hct, copy_err_ne_notFound]
  refine ⟨hiff, by decide, fun msg => by simp [IsNotFound], hdl, ?_⟩
  intro w fs repoURL directory h
  rw [Bool.eq_false_iff, Ne, hdl]
  rintro ⟨res, hg, hct⟩
  rcases h with h | ⟨e, he⟩ | ⟨res2, hg2, hct2⟩
  · have := (hdl w fs repoURL directory).2 ⟨res, hg, hct⟩
    rw [h] at this
    exact absurd this (by decide)
  · rw [hg] at he; cases he
  · rw [hg] at hg2; cases hg2; rw [hct] at hct2; cases hct2

/-- The error of an HTML answer satisfies `IsNotFound`; a transport error and a nil
error do not. -/
theorem isNotFound_iff_witness :
    IsNotFound (DownloadWorkbookFile missingWorld emptyFS "Sales" "out").err = true ∧
    IsNotFound (DownloadWorkbookFile offlineWorld emptyFS "Sales" "out").err = false ∧
    IsNotFound (DownloadWorkbookFile plainWorld emptyFS "Sales" "out").err = false :=
  ⟨(isNotFound_iff.2.2.2.1 missingWorld emptyFS "Sales" "out").2 ⟨_, rfl, by decide⟩,
   isNotFound_iff.2.2.2.2 offlineWorld emptyFS "Sales" "out" (Or.inr (Or.inl ⟨_, rfl⟩)),
   isNotFound_iff.2.2.2.2 plainWorld emptyFS "Sales" "out" (Or.inl (by decide))⟩

/-- C8, as stated, fails: the server sends the workbook packaged at the first
download and plain at the second.  Both calls succeed, with the same `repoURL` and
the same directory, from a filesystem without files, and afterwards two files are
present for the workbook: `out/Sales.twbx` with the first body and `out/Sales.twb`
with the second. -/
theorem download_twice_two_files :
    (∀ path ∈ workbookFiles "out" "Sales", emptyFS path = none) ∧
    (DownloadWorkbookFile packagedWorld emptyFS "Sales" "out").err = none ∧
    (DownloadWorkbookFile plainWorld
      (DownloadWorkbookFile packagedWorld emptyFS "Sales" "out").fs "Sales" "out").err = none ∧
    workbookFiles "out" "Sales" = ["out/Sales.twb", "out/Sales.twbx"] ∧
    (DownloadWorkbookFile plainWorld
      (DownloadWorkbookFile packagedWorld emptyFS "Sales" "out").fs "Sales" "out").fs
        "out/Sales.twb" = some [60, 63] ∧
    (DownloadWorkbookFile plainWorld
      (DownloadWorkbookFile packagedWorld emptyFS "Sales" "out").fs "Sales" "out").fs
        "out/Sales.twbx" = some [80, 75, 3, 4] ∧
    ¬ ∃! path, path ∈ workbookFiles "out" "Sales" ∧
      (DownloadWorkbookFile plainWorld
        (DownloadWorkbookFile packagedWorld emptyFS "Sales" "out").fs "Sales" "out").fs
          path ≠ none := by
  have h1 : (DownloadWorkbookFile plainWorld
      (DownloadWorkbookFile packagedWorld emptyFS "Sales" "out").fs "Sales" "out").fs
        "out/Sales.twb" = some [60, 63] := by decide
  have h2 : (DownloadWorkbookFile plainWorld
      (DownloadWorkbookFile packagedWorld emptyFS "Sales" "out").fs "Sales" "out").fs
        "out/Sales.twbx" = some [80, 75, 3, 4] := by decide
  have hf : workbookFiles "out" "Sales" = ["out/Sales.twb", "out/Sales.twbx"] := by decide
  refine ⟨fun _ _ => rfl, by decide, by decide, hf, h1, h2, ?_⟩
  rintro ⟨path, _, huniq⟩
  have e1 := huniq "out/Sales.twb" ⟨by rw [hf]; simp, by rw [h1]; simp⟩
  have e2 := huniq "out/Sales.twbx" ⟨by rw [hf]; simp, by rw [h2]; simp⟩
  exact absurd (e1.trans e2.symm) (by decide)

/-- C8, amended: two successive successful calls with the same `repoURL` and the
same directory whose responses select the same extension return the same file
name and, from a filesystem with no file for the workbook, leave exactly one file
present for it, the returned one, whose content is the body of the second
response. -/
theorem download_twice_same_extension (w1 w2 : World) (fs : FileSystem)
    (repoURL directory : String) (res1 res2 : Response)
    (hnone : ∀ path ∈ workbookFiles directory repoURL, fs path = none)
    (hget1 : w1.Get (workbookURL repoURL) = Except.ok res1)
    (hget2 : w2.Get (workbookURL repoURL) = Except.ok res2)
    (hext : Contains (ToLower (res1.Header.Get "Content-Disposition")) ".twbx" =
      Contains (ToLower (res2.Header.Get "Content-Disposition")) ".twbx")
    (hok1 : (DownloadWorkbookFile w1 fs repoURL directory).err = none)
    (hok2 : (DownloadWorkbookFile w2 (DownloadWorkbookFile w1 fs repoURL directory).fs
      repoURL directory).err = none) :
    (DownloadWorkbookFile w1 fs repoURL directory).filename =
      (DownloadWorkbookFile w2 (DownloadWorkbookFile w1 fs repoURL directory).fs
        repoURL directory).filename ∧
    (DownloadWorkbookFile w2 (DownloadWorkbookFile w1 fs repoURL directory).fs
        repoURL directory).fs
      (DownloadWorkbookFile w2 (DownloadWorkbookFile w1 fs repoURL directory).fs
        repoURL directory).filename = some res2.Body.data ∧
    ∀ path ∈ workbookFiles directory repoURL,
      ((DownloadWorkbookFile w2 (DownloadWorkbookFile w1 fs repoURL directory).fs
          repoURL directory).fs path ≠ none ↔
        path = (DownloadWorkbookFile w2 (DownloadWorkbookFile w1 fs repoURL directory).fs
          repoURL directory).filename) := by
  have hname : targetName directory repoURL res1 = targetName directory repoURL res2 := by
    simp only [targetName, hext]
  rcases download_cases w1 fs repoURL directory with ⟨e, _, hr1⟩ | ⟨r, _, _, hr1⟩ |
      ⟨r, e, _, _, _, hr1⟩ | ⟨r, hg1, _, _, hr1⟩
  · rw [hr1] at hok1; cases hok1
  · rw [hr1] at hok1; cases hok1
  · rw [hr1] at hok1; cases hok1
  · rw [hget1] at hg1; cases hg1
    rcases download_cases w2 (DownloadWorkbookFile w1 fs repoURL directory).fs repoURL
        directory with ⟨e, _, hr2⟩ | ⟨r, _, _, hr2⟩ | ⟨r, e, _, _, _, hr2⟩ | ⟨r, hg2, _, _, hr2⟩
    · rw [hr2] at hok2; cases hok2
    · rw [hr2] at hok2; cases hok2
    · rw [hr2] at hok2; cases hok2
    · rw [hget2] at hg2; cases hg2
      rw [hr2] at hok2
      have hdata := copy_ok _ _ hok2
      rw [hr2]
      refine ⟨by rw [hr1]; exact hname, by simp [hdata], ?_⟩
      intro path hp
      by_cases hpn : path = targetName directory repoURL res2
      · subst hpn; simp
      · simp only [Function.update_noteq hpn, hr1, hpn, iff_false, not_not]
        rw [hname, Function.update_noteq hpn]
        exact hnone path hp

/-- Two downloads of the packaged workbook leave `out/Sales.twbx` only. -/
theorem download_twice_same_extension_witness :
    (DownloadWorkbookFile packagedWorld emptyFS "Sales" "out").filename =
      (DownloadWorkbookFile packagedWorld
        (DownloadWorkbookFile packagedWorld emptyFS "Sales" "out").fs "Sales" "out").filename ∧
    (DownloadWorkbookFile packagedWorld
        (DownloadWorkbookFile packagedWorld emptyFS "Sales" "out").fs "Sales" "out").fs
      (DownloadWorkbookFile packagedWorld
        (DownloadWorkbookFile packagedWorld emptyFS "Sales" "out").fs "Sales" "out").filename =
      some [80, 75, 3, 4] ∧
    ∀ path ∈ workbookFiles "out" "Sales",
      ((DownloadWorkbookFile packagedWorld
          (DownloadWorkbookFile packagedWorld emptyFS "Sales" "out").fs "Sales" "out").fs
            path ≠ none ↔
        path = (DownloadWorkbookFile packagedWorld
          (DownloadWorkbookFile packagedWorld emptyFS "Sales" "out").fs "Sales" "out").filename) :=
  download_twice_same_extension packagedWorld packagedWorld emptyFS "Sales" "out" _ _
    (fun _ _ => rfl) rfl rfl rfl (by decide) (by decide)

/-! ## AllWorkbooks -/

/-- C1: whatever the username and the server, every request that `AllWorkbooks`
issues has count 20 and has as its index the total number of workbooks in the
pages received in answer to the requests before it, whatever the lengths of those
pages; so the first request has index 0. -/
theorem allWorkbooks_request_index (srv : Server) (username : String) (fuel : Nat)
    (before : List Request) (r : Request) (after : List Request)
    (h : (AllWorkbooksRun srv username fuel).1.requests = before ++ r :: after) :
    r.count = 20 ∧
    r.index = ((received srv 0 before).map List.length).sum ∧
    (before = [] → r.index = 0) ∧
    r.username = username := by
  obtain ⟨pages, tail, hs, htail, hreqs⟩ := run_requests srv username fuel
  rw [hreqs] at h
  have hr := requests_split srv username pages 0 0 tail before r after hs
    (by simpa using htail) h
  have hidx : r.index = ((received srv 0 before).map List.length).sum := by
    rw [hr]; simp [requestAt, List.length_flatten]
  refine ⟨by rw [hr]; rfl, hidx, ?_, by rw [hr]; rfl⟩
  intro hb
  rw [hidx, hb]; rfl

/-- Pages of 20, 20 and 5 items: three requests, at the indices 0, 20 and 40, and
45 records; pages of 25 and 3 items: two requests, at the indices 0 and 25. -/
theorem allWorkbooks_request_index_witness :
    (AllWorkbooksRun pagedServer "alice" 3).1.requests.map Request.index = [0, 20, 40] ∧
    (AllWorkbooksRun oversizedServer "alice" 2).1.requests.map Request.index = [0, 25] ∧
    (AllWorkbooks pagedServer "alice" 3).map (fun out => (out.1.length, out.2)) =
      some (45, none) ∧
    (requestAt pagedServer "alice" 2 40).count = 20 ∧
    (requestAt pagedServer "alice" 2 40).index =
      ((received pagedServer 0
        [requestAt pagedServer "alice" 0 0, requestAt pagedServer "alice" 1 20]).map
          List.length).sum :=
  ⟨by decide, by decide, by decide,
   (allWorkbooks_request_index pagedServer "alice" 3
      [requestAt pagedServer "alice" 0 0, requestAt pagedServer "alice" 1 20]
      (requestAt pagedServer "alice" 2 40) [] (by decide)).1,
   (allWorkbooks_request_index pagedServer "alice" 3
      [requestAt pagedServer "alice" 0 0, requestAt pagedServer "alice" 1 20]
      (requestAt pagedServer "alice" 2 40) [] (by decide)).2.1⟩

/-- C2: when the server answers the successive requests with `k` pages of at least
20 items and then with a page of fewer than 20 items, `AllWorkbooks` ends, with a
nil error, after exactly `k + 1` requests: it has not ended after `k` or fewer, and
no amount of fuel beyond `k + 1` adds a request.  A page of exactly 20 items does
not end the loop: after any number of such pages the loop is still running and its
next iteration issues one more request, at the index after them. -/
theorem allWorkbooks_stops_at_short_page (srv : Server) (username : String) :
    (∀ (pages : List (List WorkbookPtr)) (last : List WorkbookPtr),
      Serves srv username 0 0 (pages ++ [last]) →
      (∀ p ∈ pages, COUNT ≤ p.length) → last.length < COUNT →
      (∀ fuel, pages.length + 1 ≤ fuel →
        AllWorkbooks srv username fuel = some ((pages ++ [last]).flatten, none) ∧
        (AllWorkbooksRun srv username fuel).1.requests.length = pages.length + 1) ∧
      (∀ fuel, fuel ≤ pages.length →
        AllWorkbooks srv username fuel = none ∧
        (AllWorkbooksRun srv username fuel).1.requests.length = fuel)) ∧
    (∀ pages : List (List WorkbookPtr),
      Serves srv username 0 0 pages → (∀ p ∈ pages, p.length = 20) →
      AllWorkbooks srv username pages.length = none ∧
      (AllWorkbooksRun srv username pages.length).1.requests.length = pages.length ∧
      (AllWorkbooksRun srv username (pages.length + 1)).1.requests =
        (AllWorkbooksRun srv username pages.length).1.requests ++
          [requestAt srv username pages.length (20 * pages.length)]) := by
  refine ⟨?_, ?_⟩
  · intro pages last hs hfull hshort
    have hs1 := ((serves_append srv username pages last 0 0).1 hs).1
    have hlast := ((serves_append srv username pages last 0 0).1 hs).2
    simp only [Nat.zero_add] at hlast
    refine ⟨?_, fun fuel hfuel => run_within_full_pages srv username pages hs1 hfull fuel hfuel⟩
    intro fuel hfuel
    obtain ⟨m, rfl⟩ : ∃ m, fuel = pages.length + (m + 1) := ⟨fuel - pages.length - 1, by omega⟩
    have hdo : srv.Do (advance srv username initState pages).requests.length
        (requestAt srv username (advance srv username initState pages).requests.length
          (advance srv username initState pages).index) = PageResult.decoded last := by
      rw [advance_init_requests_length, advance_init_index]; exact hlast
    have hbody := loopBody_short srv username _ last hdo hshort
    have hrun := run_full_pages srv username pages hs1 hfull (m + 1)
    rw [loop_succ_fst_of_break srv username _ m (by rw [hbody]), hbody] at hrun
    refine ⟨?_, ?_⟩
    · simp [AllWorkbooks, hrun, advance_all, initState]
    · rw [hrun]
      simp [advance_init_requests_length]
  · intro pages hs hexact
    have hfull : ∀ p ∈ pages, COUNT ≤ p.length := fun p hp => by
      rw [hexact p hp]; decide
    have hk := run_within_full_pages srv username pages hs hfull pages.length (Nat.le_refl _)
    refine ⟨hk.1, hk.2, ?_⟩
    have h0 := run_full_pages srv username pages hs hfull 0
    have h1 := run_full_pages srv username pages hs hfull 1
    rw [Nat.add_zero, loop] at h0
    have hflat : pages.flatten.length = 20 * pages.length := by
      rw [List.length_flatten]
      have : pages.map List.length = List.replicate pages.length 20 := by
        apply List.eq_replicate_iff.mpr
        refine ⟨by simp, ?_⟩
        intro n hn
        obtain ⟨p, hp, rfl⟩ := List.mem_map.mp hn
        exact hexact p hp
      rw [this]; simp [Nat.mul_comm]
    rw [h1, h0]
    have hfst : (loop srv username 1 (advance srv username initState pages)).1 =
        (loopBody srv username (advance srv username initState pages)).1 := by
      rw [loop]
      rcases loopBody srv username (advance srv username initState pages) with ⟨s2, b⟩
      cases b <;> rfl
    rw [hfst, loopBody_requests, advance_init_requests_length, advance_init_index, hflat]

/-- The server with 45 workbooks is asked three times, however much fuel there is;
the server with pages of 20 is asked a fifth time after four pages. -/
theorem allWorkbooks_stops_at_short_page_witness :
    AllWorkbooks pagedServer "alice" 3 = some ((([pageOf 20, pageOf 20] ++ [pageOf 5]).flatten, none)) ∧
    (AllWorkbooksRun pagedServer "alice" 7).1.requests.length = 3 ∧
    AllWorkbooks pagedServer "alice" 2 = none ∧
    AllWorkbooks endlessServer "alice" 4 = none ∧
    (AllWorkbooksRun endlessServer "alice" 5).1.requests =
      (AllWorkbooksRun endlessServer "alice" 4).1.requests ++
        [requestAt endlessServer "alice" 4 80] :=
  ⟨(((allWorkbooks_stops_at_short_page pagedServer "alice").1 [pageOf 20, pageOf 20] (pageOf 5)
      (by decide) (by decide) (by decide)).1 3 (by decide)).1,
   (((allWorkbooks_stops_at_short_page pagedServer "alice").1 [pageOf 20, pageOf 20] (pageOf 5)
      (by decide) (by decide) (by decide)).1 7 (by decide)).2,
   (((allWorkbooks_stops_at_short_page pagedServer "alice").1 [pageOf 20, pageOf 20] (pageOf 5)
      (by decide) (by decide) (by decide)).2 2 (by decide)).1,
   ((allWorkbooks_stops_at_short_page endlessServer "alice").2
      [pageOf 20, pageOf 20, pageOf 20, pageOf 20] (by decide) (by decide)).1,
   ((allWorkbooks_stops_at_short_page endlessServer "alice").2
      [pageOf 20, pageOf 20, pageOf 20, pageOf 20] (by decide) (by decide)).2.2⟩

/-- C3: when the server answers the successive requests with `k` full pages and the
next request fails, in the transport or in the decoding, `AllWorkbooks` ends at
that request, the `k + 1`-th, and returns the concatenation of the `k` pages, which
is empty for `k = 0`, together with that failure as a non-nil error. -/
theorem allWorkbooks_partial_on_failure (srv : Server) (username : String)
    (pages : List (List WorkbookPtr)) (e : String)
    (hs : Serves srv username 0 0 pages) (hfull : ∀ p ∈ pages, COUNT ≤ p.length)
    (hfail : srv.Do pages.length (requestAt srv username pages.length pages.flatten.length) =
        PageResult.requestFailed e ∨
      srv.Do pages.length (requestAt srv username pages.length pages.flatten.length) =
        PageResult.decodeFailed e)
    (fuel : Nat) (hfuel : pages.length + 1 ≤ fuel) :
    AllWorkbooks srv username fuel = some (pages.flatten, some (Error.external e)) ∧
    (AllWorkbooksRun srv username fuel).1.requests.length = pages.length + 1 ∧
    (pages = [] → AllWorkbooks srv username fuel = some ([], some (Error.external e))) := by
  obtain ⟨m, rfl⟩ : ∃ m, fuel = pages.length + (m + 1) := ⟨fuel - pages.length - 1, by omega⟩
  have hbody : loopBody srv username (advance srv username initState pages) =
      ({ index := (advance srv username initState pages).index,
         all := (advance srv username initState pages).all,
         err := some (Error.external e),
         requests := (advance srv username initState pages).requests ++
           [requestAt srv username (advance srv username initState pages).requests.length
             (advance srv username initState pages).index] }, true) := by
    rcases hfail with hf | hf
    · apply loopBody_requestFailed
      rw [advance_init_requests_length, advance_init_index]; exact hf
    · apply loopBody_decodeFailed
      rw [advance_init_requests_length, advance_init_index]; exact hf
  have hrun := run_full_pages srv username pages hs hfull (m + 1)
  rw [loop_succ_fst_of_break srv username _ m (by rw [hbody]), hbody] at hrun
  have hres : AllWorkbooks srv username (pages.length + (m + 1)) =
      some (pages.flatten, some (Error.external e)) := by
    simp [AllWorkbooks, hrun, advance_all, initState]
  refine ⟨hres, ?_, ?_⟩
  · rw [hrun]
    simp [advance_init_requests_length]
  · intro hnil
    rw [hres, hnil]; rfl

/-- A full page, then a connection reset: the 20 workbooks and the error, after two
requests. -/
theorem allWorkbooks_partial_on_failure_witness :
    AllWorkbooks failingServer "alice" 2 =
      some ([pageOf 20].flatten, some (Error.external "connection reset by peer")) ∧
    (AllWorkbooksRun failingServer "alice" 2).1.requests.length = 2 :=
  ⟨(allWorkbooks_partial_on_failure failingServer "alice" [pageOf 20]
      "connection reset by peer" (by decide) (by decide) (Or.inl (by decide)) 2
      (by decide)).1,
   (allWorkbooks_partial_on_failure failingServer "alice" [pageOf 20]
      "connection reset by peer" (by decide) (by decide) (Or.inl (by decide)) 2
      (by decide)).2.1⟩

/-- C4: when `AllWorkbooks` returns a nil error, the pages received are some pages
of at least 20 items followed by one page of fewer than 20, and the returned
sequence is their concatenation, in the order of the requests and with the items
of each page in the order of the page; its length is the sum of their lengths. -/
theorem allWorkbooks_result_is_concatenation (srv : Server) (username : String) (fuel : Nat)
    (all : List WorkbookPtr) (h : AllWorkbooks srv username fuel = some (all, none)) :
    ∃ pages last,
      received srv 0 (AllWorkbooksRun srv username fuel).1.requests = pages ++ [last] ∧
      (∀ p ∈ pages, COUNT ≤ p.length) ∧ last.length < COUNT ∧
      Serves srv username 0 0 (pages ++ [last]) ∧
      all = (pages ++ [last]).flatten ∧
      all.length = ((pages ++ [last]).map List.length).sum := by
  obtain ⟨pages, hs, hfull, hreq, hend⟩ := run_result srv username fuel all none h
  rcases hend with ⟨e, _, _, herr⟩ | ⟨last, hdo, hshort, hall, _⟩
  · cases herr
  · have hall2 : all = (pages ++ [last]).flatten := by simp [hall]
    refine ⟨pages, last, ?_, hfull, hshort, ?_, hall2, ?_⟩
    · rw [hreq, received_requestsFor srv username pages _ 0 0 hs]
      simp only [Nat.zero_add, received, hdo, PageResult.items]
    · exact (serves_append srv username pages last 0 0).2 ⟨hs, by simpa using hdo⟩
    · rw [hall2, List.length_flatten]

/-- The 45 workbooks of the server come back as the pages of 20, 20 and 5, in order. -/
theorem allWorkbooks_result_is_concatenation_witness :
    ∃ pages last,
      received pagedServer 0 (AllWorkbooksRun pagedServer "alice" 3).1.requests =
        pages ++ [last] ∧
      (∀ p ∈ pages, COUNT ≤ p.length) ∧ last.length < COUNT ∧
      Serves pagedServer "alice" 0 0 (pages ++ [last]) ∧
      (pageOf 20 ++ pageOf 20 ++ pageOf 5) = (pages ++ [last]).flatten ∧
      (pageOf 20 ++ pageOf 20 ++ pageOf 5).length = ((pages ++ [last]).map List.length).sum :=
  allWorkbooks_result_is_concatenation pagedServer "alice" 3
    (pageOf 20 ++ pageOf 20 ++ pageOf 5) (by decide)

/-- C10, as stated, fails: the server sends one workbook without the field
`workbookRepoUrl`; `AllWorkbooks` returns it, with a nil error, and its `RepoURL` is
empty. -/
theorem allWorkbooks_returns_empty_repoURL :
    AllWorkbooks blankServer "alice" 1 = some ([some blankWorkbook], none) ∧
    blankWorkbook.RepoURL = "" ∧
    ∃ out, AllWorkbooks blankServer "alice" 1 = some out ∧
      ∃ wb, some wb ∈ out.1 ∧ wb.RepoURL = "" :=
  ⟨by decide, rfl, _, rfl, blankWorkbook, by decide, rfl⟩

/-- C10, amended: the sequence that `AllWorkbooks` returns consists of the items of
the pages the server sent, as they are; `AllWorkbooks` does not look at `RepoURL`,
which is therefore non-empty in every returned workbook whenever it is non-empty in
every workbook of those pages. -/
theorem allWorkbooks_repoURL_from_pages (srv : Server) (username : String) (fuel : Nat)
    (all : List WorkbookPtr) (err : Option Error)
    (h : AllWorkbooks srv username fuel = some (all, err)) :
    all = (received srv 0 (AllWorkbooksRun srv username fuel).1.requests).flatten ∧
    ((∀ page ∈ received srv 0 (AllWorkbooksRun srv username fuel).1.requests,
        ∀ w ∈ page, ∃ wb, w = some wb ∧ wb.RepoURL ≠ "") →
      ∀ w ∈ all, ∃ wb, w = some wb ∧ wb.RepoURL ≠ "") := by
  have hall : all = (received srv 0 (AllWorkbooksRun srv username fuel).1.requests).flatten := by
    obtain ⟨pages, hs, _, hreq, hend⟩ := run_result srv username fuel all err h
    rw [hreq, received_requestsFor srv username pages _ 0 0 hs]
    rcases hend with ⟨e, hdo, hall, _⟩ | ⟨last, hdo, _, hall, _⟩
    · rcases hdo with hdo | hdo <;>
        simp only [Nat.zero_add, received, hdo, PageResult.items, hall, List.flatten_append,
          List.flatten_cons, List.flatten_nil, List.append_nil]
    · simp only [Nat.zero_add, received, hdo, PageResult.items, hall, List.flatten_append,
        List.flatten_cons, List.flatten_nil, List.append_nil]
  refine ⟨hall, ?_⟩
  intro hpages w hw
  rw [hall] at hw
  obtain ⟨page, hpage, hwp⟩ := List.mem_flatten.mp hw
  exact hpages page hpage w hwp

/-- Every workbook of the server with 45 workbooks has a `RepoURL`, and so has every
workbook returned. -/
theorem allWorkbooks_repoURL_from_pages_witness :
    (pageOf 20 ++ pageOf 20 ++ pageOf 5) =
      (received pagedServer 0 (AllWorkbooksRun pagedServer "alice" 3).1.requests).flatten ∧
    ∀ w ∈ pageOf 20 ++ pageOf 20 ++ pageOf 5, ∃ wb, w = some wb ∧ wb.RepoURL ≠ "" :=
  ⟨(allWorkbooks_repoURL_from_pages pagedServer "alice" 3 (pageOf 20 ++ pageOf 20 ++ pageOf 5)
      none (by decide)).1,
   (allWorkbooks_repoURL_from_pages pagedServer "alice" 3 (pageOf 20 ++ pageOf 20 ++ pageOf 5)
      none (by decide)).2 (by
        intro page hpage w hw
        have hp : received pagedServer 0 (AllWorkbooksRun pagedServer "alice" 3).1.requests =
            [pageOf 20, pageOf 20, pageOf 5] := by decide
        rw [hp] at hpage
        have hmem : w = some sampleWorkbook := by
          simp only [List.mem_cons, List.mem_singleton, List.not_mem_nil, or_false] at hpage
          rcases hpage with rfl | rfl | rfl <;> exact List.eq_of_mem_replicate hw
        exact ⟨sampleWorkbook, hmem, by decide⟩)⟩

end TableauPublic
